import Mathlib

/-! Verification development for the OBJ-viewer program in `src/src/M1.cpp`.

The development shallowly embeds the two cores of the program:

* `OBJ::loadOBJ` — the line-oriented geometry parser and the de-indexing
  (flattening) step (`M1.cpp` lines 104–175), together with the way `main`
  constructs the scene from it (lines 292–307);
* the interaction state machine — `processInput` (lines 393–483),
  `key_callback` (lines 489–526) — and the draw contract `OBJ::draw`
  (lines 201–227).

Numbers: the C++ code stores coordinates in `float` and indices in
`unsigned int`/`GLuint`.  Coordinates are embedded as `ℚ` (every literal
appearing in the verified inputs is a small integer, exactly representable
in `float`, and the transform arithmetic proved about is exact in the same
way `float` arithmetic is exact on these bounds-and-sign properties);
indices are embedded as `Nat` with an explicit `% 2 ^ 32` wherever the C++
wraps (`normalIndex - 1` on `unsigned`).
-/

namespace M1

/-- Vector of three components, as `glm::vec3` (components embedded as `ℚ`). -/
structure V3 where
  x : ℚ
  y : ℚ
  z : ℚ
deriving DecidableEq

/-- The flattened mesh produced by `OBJ::loadOBJ`: the three member vectors
`vertices`, `normals`, `indices` of class `OBJ`. -/
structure Mesh where
  vertices : List V3
  normals : List V3
  indices : List Nat
deriving DecidableEq

/-- Intermediate parse data of `OBJ::loadOBJ`: `temp_vertices`,
`temp_normals`, `vertexIndices`, `normalIndices` (lines 111–113). -/
structure ParseState where
  temp_vertices : List V3
  temp_normals : List V3
  vertexIndices : List Nat
  normalIndices : List Nat
deriving DecidableEq

/-! Tokenisation.

`std::istream >> std::string` skips whitespace and reads a maximal run of
non-whitespace characters.  A line therefore decomposes into its
whitespace-separated tokens. -/

/-- Split a character list into maximal non-whitespace runs
(accumulator holds the current run, reversed). -/
def splitWSAux : List Char → List Char → List (List Char)
  | [], cur => if cur.isEmpty then [] else [cur.reverse]
  | c :: cs, cur =>
    if c.isWhitespace then
      if cur.isEmpty then splitWSAux cs []
      else cur.reverse :: splitWSAux cs []
    else splitWSAux cs (c :: cur)

/-- Whitespace-separated tokens of one input line, as the sequence of
successful `iss >> token` extractions would yield them. -/
def tokenize (s : String) : List (List Char) := splitWSAux s.toList []

/-! Numeric extraction.

`operator>>` on an arithmetic type (C++11 semantics):
* if the stream is already exhausted/failed, the sentry fails and the
  target variable is **left unmodified** (for the uninitialised locals of
  the face loop this means the stale previous value survives);
* if characters are available but no digits can be converted, `0` is
  written and the stream enters the failed state;
* otherwise the maximal digit run is consumed and its value written.

Sign prefixes, fractional literals and out-of-range values are not
exercised by any claim file and are not modelled beyond this. -/

/-- Value of the maximal leading digit run, with the unconsumed rest. -/
def readDigits : List Char → Nat → Nat × List Char
  | [], acc => (acc, [])
  | c :: cs, acc =>
    if c.isDigit then readDigits cs (10 * acc + (c.toNat - 48))
    else (acc, c :: cs)

/-- Numeric conversion of one token for `unsigned` extraction:
`none` when the token does not start with a digit (conversion failure). -/
def readU32Token (t : List Char) : Option (Nat × List Char) :=
  match t with
  | [] => none
  | c :: cs =>
    if c.isDigit then
      let r := readDigits (c :: cs) 0
      some (r.1 % 2 ^ 32, r.2)
    else none

/-- A formatted-input stream over the tokens of one face token
(`std::istringstream vdss`), with the sticky fail state. -/
structure UStream where
  toks : List (List Char)
  failed : Bool
deriving DecidableEq

/-- Result of one `>>` into an `unsigned` variable. -/
inductive ReadResult
  | val (n : Nat)  -- extraction succeeded
  | zero           -- conversion failed: `0` is written (C++11)
  | keep           -- sentry failed: the variable keeps its old value
deriving DecidableEq

/-- Extraction `stream >> var` for `unsigned` (see `ReadResult`). -/
def extractU32 (st : UStream) : ReadResult × UStream :=
  if st.failed then (.keep, st)
  else
    match st.toks with
    | [] => (.keep, ⟨[], true⟩)
    | t :: ts =>
      match readU32Token t with
      | none => (.zero, ⟨t :: ts, true⟩)
      | some (v, rest) =>
        (.val v, if rest.isEmpty then ⟨ts, false⟩ else ⟨rest :: ts, false⟩)

/-- Effect of a `ReadResult` on the target variable. -/
def applyRead (old : Nat) : ReadResult → Nat
  | .val n => n
  | .zero => 0
  | .keep => old

/-- Extraction `iss >> vertexData` for `std::string`: on an exhausted line stream the
extraction fails and `vertexData` keeps its previous contents. -/
def extractStr (toks : List (List Char)) (old : List Char) :
    List Char × List (List Char) :=
  match toks with
  | [] => (old, [])
  | t :: ts => (t, ts)

/-- Decrement `n - 1` on a C++ `unsigned int` — the `vertexIndex - 1` /
`normalIndex - 1` conversions of lines 146 and 150.  An `unsigned` always
holds a value below `2 ^ 32`, and decrementing it wraps exactly at `0`,
to `2 ^ 32 - 1 = 4294967295`. -/
def sub1w (n : Nat) : Nat := if n = 0 then 4294967295 else n - 1

/-- State of the three-iteration face-corner loop (lines 135–151).
`vertexData` persists across iterations; `vertexIndex` and `normalIndex`
are the `unsigned` locals declared (uninitialised) at line 133, so they
start as unspecified garbage values and keep their stale contents whenever
an extraction's sentry fails. -/
structure FaceState where
  rest : List (List Char)
  vertexData : List Char
  vertexIndex : Nat
  normalIndex : Nat
  vIdx : List Nat
  nIdx : List Nat
deriving DecidableEq

/-- One iteration of the face-corner loop (lines 135–151 of `M1.cpp`):
extract the next token, replace `/` by `' '`, re-read it as numbers, and
record a vertex index (always) and a normal index (when the token shows a
second space, i.e. at least two slashes). -/
def faceCorner (fs : FaceState) : FaceState :=
  let p := extractStr fs.rest fs.vertexData
  let rep := p.1.map fun c => if c = '/' then ' ' else c
  let e1 := extractU32 ⟨splitWSAux rep [], false⟩
  let vi := applyRead fs.vertexIndex e1.1
  let spaces := rep.count ' '
  if 1 ≤ spaces then
    let e2 := extractU32 e1.2   -- textureIndex: value discarded
    if 2 ≤ spaces then
      let e3 := extractU32 e2.2
      let ni := applyRead fs.normalIndex e3.1
      ⟨p.2, rep, vi, ni, fs.vIdx ++ [sub1w vi], fs.nIdx ++ [sub1w ni]⟩
    else
      ⟨p.2, rep, vi, fs.normalIndex, fs.vIdx ++ [sub1w vi], fs.nIdx⟩
  else
    ⟨p.2, rep, vi, fs.normalIndex, fs.vIdx ++ [sub1w vi], fs.nIdx⟩

/-- Full `f`-line processing: three corner iterations starting from a fresh
(empty) `vertexData` and the garbage pair `g` in the two uninitialised
index locals. -/
def processFaceLine (g : Nat × Nat) (restToks : List (List Char))
    (vIdx nIdx : List Nat) : List Nat × List Nat :=
  let fs := faceCorner (faceCorner (faceCorner ⟨restToks, [], g.1, g.2, vIdx, nIdx⟩))
  (fs.vIdx, fs.nIdx)

/-- Integer literal as `ℚ` for the `float` extractions of `v`/`vn` lines.
(No claim file contains fractional or exponent literals.) -/
def readQ (t : List Char) : Option ℚ :=
  match t with
  | [] => none
  | c :: cs =>
    if c = '-' then
      match cs with
      | [] => none
      | d :: ds =>
        if d.isDigit then some (-(((readDigits (d :: ds) 0).1 : ℚ)))
        else none
    else if c.isDigit then some (((readDigits (c :: cs) 0).1 : ℚ))
    else none

/-- Extractions `iss >> v.x >> v.y >> v.z` with sticky failure.  A component whose
extraction does not succeed is embedded as `0` (in the C++ source the
`glm::vec3` local is uninitialised there; no claim reads such a
component). -/
def read3 (toks : List (List Char)) : V3 :=
  match toks with
  | [] => ⟨0, 0, 0⟩
  | a :: rest1 =>
    match readQ a with
    | none => ⟨0, 0, 0⟩
    | some xv =>
      match rest1 with
      | [] => ⟨xv, 0, 0⟩
      | b :: rest2 =>
        match readQ b with
        | none => ⟨xv, 0, 0⟩
        | some yv =>
          match rest2 with
          | [] => ⟨xv, yv, 0⟩
          | c :: _ =>
            match readQ c with
            | none => ⟨xv, yv, 0⟩
            | some zv => ⟨xv, yv, zv⟩

/-- One iteration of the `while (std::getline...)` loop (lines 116–153):
classify the line by its first token and update the parse buffers. -/
def processLine (g : Nat × Nat) (st : ParseState) (line : String) : ParseState :=
  match tokenize line with
  | [] => st
  | pfx :: rest =>
    if pfx = ['v'] then
      { st with temp_vertices := st.temp_vertices ++ [read3 rest] }
    else if pfx = ['v', 'n'] then
      { st with temp_normals := st.temp_normals ++ [read3 rest] }
    else if pfx = ['f'] then
      let r := processFaceLine g rest st.vertexIndices st.normalIndices
      { st with vertexIndices := r.1, normalIndices := r.2 }
    else st

/-- The whole read loop.  `g i` is the garbage pair for the uninitialised
`vertexIndex`/`normalIndex` locals on line `i` (freshly declared per
`f` line). -/
def parseOBJAux (g : Nat → Nat × Nat) : List String → Nat → ParseState → ParseState
  | [], _, st => st
  | l :: ls, i, st => parseOBJAux g ls (i + 1) (processLine (g i) st l)

/-- Parse all lines of a geometry file. -/
def parseOBJ (g : Nat → Nat × Nat) (lines : List String) : ParseState :=
  parseOBJAux g lines 0 ⟨[], [], [], []⟩

/-- The default up-vector normal `glm::vec3(0,1,0)` of lines 165/168. -/
def defaultNormal : V3 := ⟨0, 1, 0⟩

/-- The flattening loop (lines 156–172).  An out-of-range vertex index makes
the C++ read out of bounds (undefined, spec §9 open question); it is
embedded as a `(0,0,0)` default that no value-level theorem relies on. -/
def flatten (ps : ParseState) : Mesh :=
  let n := ps.vertexIndices.length
  { vertices := ps.vertexIndices.map fun vi => ps.temp_vertices.getD vi ⟨0, 0, 0⟩
    normals := (List.range n).map fun i =>
      match ps.normalIndices[i]? with
      | some ni =>
        if ni < ps.temp_normals.length then ps.temp_normals.getD ni ⟨0, 0, 0⟩
        else defaultNormal
      | none => defaultNormal
    indices := List.range n }

/-- Function `OBJ::loadOBJ` on an opened file, given as its list of lines. -/
def loadOBJ (g : Nat → Nat × Nat) (lines : List String) : Mesh :=
  flatten (parseOBJ g lines)

/-- The `OBJ` constructor's effect on the mesh members: when the file
cannot be opened (`fileContents = none`), `loadOBJ` merely logs and
returns (lines 106–109), so the object is fully constructed with all
three vectors empty; no exception is thrown. -/
def constructOBJ (g : Nat → Nat × Nat) (fileContents : Option (List String)) : Mesh :=
  match fileContents with
  | none => ⟨[], [], []⟩
  | some lines => loadOBJ g lines

/-- In `main` (lines 292–307), two `OBJ`s are constructed from the same path and
pushed into `objects`; the `catch` never fires (nothing throws), and the
`objects.empty()` exit check sees a 2-element vector either way. -/
def mainScene (g : Nat → Nat × Nat) (fileContents : Option (List String)) : List Mesh :=
  [constructOBJ g fileContents, constructOBJ g fileContents]

/-- A line counts as a face line when its first extracted token is `f`. -/
def lineIsFace (l : String) : Bool :=
  match tokenize l with
  | [] => false
  | pfx :: _ => pfx = ['f']

/-- Number of `f` lines of a geometry file. -/
def faceCount (lines : List String) : Nat := (lines.filter lineIsFace).length

/-! The interaction state machine.

Globals of `M1.cpp` lines 237–246: the object registry with its selection
index, the two mode booleans, the wireframe flag, and the three speed
constants.  Only the transform part of each `OBJ` matters to the
interaction claims, so an object is embedded as its transform. -/

/-- Transform state of one `OBJ` (members `position`, `rotation`, `scale`,
lines 80–82). -/
structure ObjectState where
  position : V3
  rotation : V3
  scale : V3
deriving DecidableEq

/-- The global interaction state: `objects`, `selectedObjectIndex`,
`transformMode`, `transformMode2`, `wireframeMode` (lines 237–241). -/
structure ViewerState where
  objects : List ObjectState
  selectedIndex : Nat
  transformMode : Bool
  transformMode2 : Bool
  wireframeMode : Bool
deriving DecidableEq

/-- Held-key state polled by `processInput` via `glfwGetKey`. -/
structure Keys where
  w : Bool
  s : Bool
  a : Bool
  d : Bool
  q : Bool
  e : Bool
  up : Bool
  down : Bool
  left : Bool
  right : Bool
deriving DecidableEq

def rotationSpeed : ℚ := 50
def translationSpeed : ℚ := 2
def scaleSpeed : ℚ := 1

/-- Truncated division remainder: `fmod(x, y)` of `<cmath>` — the result
has the sign of `x` and magnitude below `|y|` (exact for `fmod`). -/
def ratTrunc (q : ℚ) : ℤ := if 0 ≤ q then ⌊q⌋ else ⌈q⌉

def fmodQ (x y : ℚ) : ℚ := x - y * ((ratTrunc (x / y) : ℤ) : ℚ)

/-- The scale-mode branch of `processInput` (lines 408–431): per-key
component updates followed by the componentwise
`glm::max(scale, vec3(0.1))` floor. -/
def scaleUpd (k : Keys) (c : ℚ) (s0 : V3) : V3 :=
  let s1 := if k.w then { s0 with y := s0.y + c } else s0
  let s2 := if k.s then { s1 with y := s1.y - c } else s1
  let s3 := if k.a then { s2 with x := s2.x - c } else s2
  let s4 := if k.d then { s3 with x := s3.x + c } else s3
  let s5 := if k.q then { s4 with z := s4.z + c } else s4
  let s6 := if k.e then { s5 with z := s5.z - c } else s5
  ⟨max s6.x (1 / 10), max s6.y (1 / 10), max s6.z (1 / 10)⟩

/-- The rotation-mode branch (lines 432–456): per-key component updates
followed by `fmod(·, 360)` on each component. -/
def rotUpd (k : Keys) (c : ℚ) (r0 : V3) : V3 :=
  let r1 := if k.w then { r0 with x := r0.x + c } else r0
  let r2 := if k.s then { r1 with x := r1.x - c } else r1
  let r3 := if k.a then { r2 with y := r2.y + c } else r2
  let r4 := if k.d then { r3 with y := r3.y - c } else r3
  let r5 := if k.q then { r4 with z := r4.z + c } else r4
  let r6 := if k.e then { r5 with z := r5.z - c } else r5
  ⟨fmodQ r6.x 360, fmodQ r6.y 360, fmodQ r6.z 360⟩

/-- The translation-mode branch (lines 457–482). -/
def posUpd (k : Keys) (c : ℚ) (p0 : V3) : V3 :=
  let p1 := if k.w || k.up then { p0 with y := p0.y + c } else p0
  let p2 := if k.s || k.down then { p1 with y := p1.y - c } else p1
  let p3 := if k.a || k.left then { p2 with x := p2.x - c } else p2
  let p4 := if k.d || k.right then { p3 with x := p3.x + c } else p3
  let p5 := if k.q then { p4 with z := p4.z - c } else p4
  let p6 := if k.e then { p5 with z := p5.z + c } else p5
  p6

/-- Function `processInput` (lines 393–483).  ESC only requests window close and H
only prints; neither touches this state.  With an empty registry or an
out-of-range selection the function returns before touching anything
(lines 402–404). -/
def processInput (st : ViewerState) (k : Keys) (dt : ℚ) : ViewerState :=
  if st.objects = [] ∨ st.objects.length ≤ st.selectedIndex then st
  else
    match st.objects[st.selectedIndex]? with
    | none => st
    | some o =>
      if st.transformMode2 then
        let oNew := { o with scale := scaleUpd k (scaleSpeed * dt) o.scale }
        { st with objects := st.objects.set st.selectedIndex oNew }
      else if st.transformMode then
        let oNew := { o with rotation := rotUpd k (rotationSpeed * dt) o.rotation }
        { st with objects := st.objects.set st.selectedIndex oNew }
      else
        let oNew := { o with position := posUpd k (translationSpeed * dt) o.position }
        { st with objects := st.objects.set st.selectedIndex oNew }

/-- Discrete press-edge events handled by `key_callback` (lines 489–526).
`hKey` only prints the help text. -/
inductive KeyEvent
  | tab
  | one
  | two
  | three
  | four
  | hKey
deriving DecidableEq

/-- Function `key_callback` on a `GLFW_PRESS` action (lines 494–525). -/
def keyCallback (st : ViewerState) (ev : KeyEvent) : ViewerState :=
  match ev with
  | .tab =>
    if st.objects = [] then st
    else { st with selectedIndex := (st.selectedIndex + 1) % st.objects.length }
  | .one => { st with transformMode := true, transformMode2 := false }
  | .two => { st with transformMode := false, transformMode2 := false }
  | .three => { st with transformMode := false, transformMode2 := true }
  | .four => { st with wireframeMode := !st.wireframeMode }
  | .hKey => st

/-- One observable step of the interaction system: either a per-frame
continuous update with the held keys and the frame's `dt`, or a discrete
key-press event. -/
inductive Step
  | frame (k : Keys) (dt : ℚ)
  | press (ev : KeyEvent)

def runStep (st : ViewerState) : Step → ViewerState
  | .frame k dt => processInput st k dt
  | .press ev => keyCallback st ev

def runSteps (st : ViewerState) (steps : List Step) : ViewerState :=
  steps.foldl runStep st

/-- The two objects `main` loads (lines 292–297): default transform with
the positions set to `(-1.5, 0, 0)` and `(1.5, 0, 0)`. -/
def initObjA : ObjectState := ⟨⟨-(3 / 2), 0, 0⟩, ⟨0, 0, 0⟩, ⟨1, 1, 1⟩⟩

def initObjB : ObjectState := ⟨⟨3 / 2, 0, 0⟩, ⟨0, 0, 0⟩, ⟨1, 1, 1⟩⟩

/-- The program's initial interaction state (lines 237–241, 292–297). -/
def initState : ViewerState :=
  { objects := [initObjA, initObjB]
    selectedIndex := 0
    transformMode := false
    transformMode2 := false
    wireframeMode := false }

/-- Iterated Tab presses (the `GLFW_KEY_TAB` case of `key_callback`). -/
def tabIter : Nat → ViewerState → ViewerState
  | 0, st => st
  | n + 1, st => tabIter n (keyCallback st .tab)

/-! The draw contract. -/

/-- The GL polygon fill mode set by `glPolygonMode`. -/
inductive FillMode
  | fill
  | line
deriving DecidableEq

/-- Method `OBJ::draw` (lines 212–227), restricted to its polygon-mode effect:
given the polygon mode `gl` in force on entry, return the mode in force at
the `glDrawElements` call and the mode left in force on exit. -/
def drawObj (selected wireframeMode : Bool) (_gl : FillMode) : FillMode × FillMode :=
  let glSet := if selected && wireframeMode then FillMode.line else FillMode.fill
  let glAfter := if selected && wireframeMode then FillMode.fill else glSet
  (glSet, glAfter)

/-- The render loop's draw pass (lines 336–338): object `i` is drawn with
`selected = (i == selectedObjectIndex)` and the global `wireframeMode`,
threading the GL polygon-mode state; collects the fill mode used by each
draw call and the final polygon-mode state. -/
def drawAllFrame (n selIdx : Nat) (wf : Bool) (gl0 : FillMode) :
    List FillMode × FillMode :=
  (List.range n).foldl
    (fun acc i =>
      let r := drawObj (decide (i = selIdx)) wf acc.2
      (acc.1 ++ [r.1], r.2))
    ([], gl0)

/-! The model matrix.

`OBJ::draw` lines 201–207 accumulate
`model = glm::mat4(1) ∘ translate(position) ∘ rotate(rx, eX) ∘ rotate(ry, eY)
∘ rotate(rz, eZ) ∘ scale(scale)`.
Each `glm` call right-multiplies the accumulator by the matrix of the new
transform; the embedding reproduces the per-column computations of the
`glm` sources over an arbitrary commutative ring, with the cosine/sine of
the (radian) rotation angle as abstract parameters.  The call sites pass
the exact unit axes, on which `glm::normalize` is the identity
(`sqrt 1 = 1`). -/

section ModelMatrix

variable {α : Type} [CommRing α]

/-- Matrix of size 4×4 in the mathematical (row, column) convention; a `glm`
column `m[j]` is the function `fun i => m i j`. -/
abbrev M4 (α : Type) := Matrix (Fin 4) (Fin 4) α

/-- Column computation of `glm::translate(m, v)`: `Result[3] = m[0]*v.x + m[1]*v.y + m[2]*v.z + m[3]`,
other columns copied. -/
def glmTranslate (m : M4 α) (v : Fin 3 → α) : M4 α :=
  Matrix.of fun i j =>
    if j = 3 then m i 0 * v 0 + m i 1 * v 1 + m i 2 * v 2 + m i 3
    else m i j

/-- Column computation of `glm::scale(m, v)`: `Result[k] = m[k] * v[k]` for `k < 3`,
`Result[3] = m[3]`. -/
def glmScale (m : M4 α) (v : Fin 3 → α) : M4 α :=
  Matrix.of fun i j =>
    if j = 0 then m i 0 * v 0
    else if j = 1 then m i 1 * v 1
    else if j = 2 then m i 2 * v 2
    else m i 3

/-- Column computation of `glm::rotate(m, angle, axis)` for an already-normalised axis `a`, with
`c = cos angle`, `s = sin angle`: the `glm` axis-angle rotation columns,
then `Result[j] = Σ_k m[k] * Rotate[j][k]` and `Result[3] = m[3]`. -/
def glmRotate (m : M4 α) (c s : α) (a : Fin 3 → α) : M4 α :=
  let t : Fin 3 → α := fun k => (1 - c) * a k
  Matrix.of fun i j =>
    if j = 0 then
      m i 0 * (c + t 0 * a 0) + m i 1 * (t 0 * a 1 + s * a 2) +
        m i 2 * (t 0 * a 2 - s * a 1)
    else if j = 1 then
      m i 0 * (t 1 * a 0 - s * a 2) + m i 1 * (c + t 1 * a 1) +
        m i 2 * (t 1 * a 2 + s * a 0)
    else if j = 2 then
      m i 0 * (t 2 * a 0 + s * a 1) + m i 1 * (t 2 * a 1 - s * a 0) +
        m i 2 * (c + t 2 * a 2)
    else m i 3

/-- The accumulated model matrix of `OBJ::draw` lines 202–207, with
`(cx, sx)`, `(cy, sy)`, `(cz, sz)` the cosine/sine of the radian values of
`rotation.x`, `rotation.y`, `rotation.z`. -/
def modelMatrix (p : Fin 3 → α) (cx sx cy sy cz sz : α) (sc : Fin 3 → α) : M4 α :=
  glmScale
    (glmRotate
      (glmRotate
        (glmRotate (glmTranslate 1 p) cx sx ![1, 0, 0])
        cy sy ![0, 1, 0])
      cz sz ![0, 0, 1])
    sc

/-- Matrix `Translate(position)`. -/
def translateMat (p : Fin 3 → α) : M4 α :=
  !![1, 0, 0, p 0; 0, 1, 0, p 1; 0, 0, 1, p 2; 0, 0, 0, 1]

/-- Matrix `RotateX` with cosine `c` and sine `s`. -/
def rotXMat (c s : α) : M4 α :=
  !![1, 0, 0, 0; 0, c, -s, 0; 0, s, c, 0; 0, 0, 0, 1]

/-- Matrix `RotateY` with cosine `c` and sine `s`. -/
def rotYMat (c s : α) : M4 α :=
  !![c, 0, s, 0; 0, 1, 0, 0; -s, 0, c, 0; 0, 0, 0, 1]

/-- Matrix `RotateZ` with cosine `c` and sine `s`. -/
def rotZMat (c s : α) : M4 α :=
  !![c, -s, 0, 0; s, c, 0, 0; 0, 0, 1, 0; 0, 0, 0, 1]

/-- Matrix `Scale(scale)`. -/
def scaleMat (v : Fin 3 → α) : M4 α :=
  !![v 0, 0, 0, 0; 0, v 1, 0, 0; 0, 0, v 2, 0; 0, 0, 0, 1]

end ModelMatrix

/-! Concrete claim inputs and small auxiliary values. -/

/-- The C4 geometry file: three `v` lines and one plain `f` line. -/
def fileC4 : List String := ["v 0 0 0", "v 1 0 0", "v 0 1 0", "f 1 2 3"]

/-- The C1 geometry file: three `v` lines, three pairwise distinct `vn`
lines, and the face `f 1//1 2//2 3//3`. -/
def fileC1 : List String :=
  ["v 0 0 0", "v 1 0 0", "v 0 1 0",
   "vn 1 0 0", "vn 0 1 0", "vn 0 0 1",
   "f 1//1 2//2 3//3"]

/-- Held-key state with only `D` (the Scale-mode `+X` key) pressed. -/
def keysOnlyD : Keys :=
  ⟨false, false, false, true, false, false, false, false, false, false⟩

/-- No key held. -/
def keysNone : Keys :=
  ⟨false, false, false, false, false, false, false, false, false, false⟩

/-- A viewer state with an empty registry. -/
def emptyViewer : ViewerState := ⟨[], 0, false, false, false⟩

/-- Each component lies strictly inside `(-360, 360)`. -/
def inWrapRange (r : V3) : Prop :=
  (-360 < r.x ∧ r.x < 360) ∧ (-360 < r.y ∧ r.y < 360) ∧ (-360 < r.z ∧ r.z < 360)

/-- Each component is at least the `0.1` scale floor. -/
def flooredScale (v : V3) : Prop :=
  1 / 10 ≤ v.x ∧ 1 / 10 ≤ v.y ∧ 1 / 10 ≤ v.z

/-! Theorems.  Helper lemmas first, then one theorem (plus witness where required) per
claim C1–C10.
-/

/-- Wrapping by `fmod(·, 360)`: the result lies strictly inside `(-360, 360)` and keeps
the sign of the dividend (wrap, not clamp). -/
theorem fmodQ_360_props (x : ℚ) :
    -360 < fmodQ x 360 ∧ fmodQ x 360 < 360 ∧
      (0 ≤ x → 0 ≤ fmodQ x 360) ∧ (x ≤ 0 → fmodQ x 360 ≤ 0) := by
  have h360 : (0 : ℚ) < 360 := by norm_num
  unfold fmodQ ratTrunc
  by_cases h : 0 ≤ x / 360
  · rw [if_pos h]
    have h1 : ((⌊x / 360⌋ : ℤ) : ℚ) ≤ x / 360 := Int.floor_le _
    have h2 : x / 360 < ((⌊x / 360⌋ : ℤ) : ℚ) + 1 := Int.lt_floor_add_one _
    have h3 : (0 : ℚ) ≤ ((⌊x / 360⌋ : ℤ) : ℚ) := by
      exact_mod_cast Int.floor_nonneg.2 h
    have h1m : ((⌊x / 360⌋ : ℤ) : ℚ) * 360 ≤ x := (le_div_iff₀ h360).1 h1
    have h2m : x < (((⌊x / 360⌋ : ℤ) : ℚ) + 1) * 360 := (div_lt_iff₀ h360).1 h2
    refine ⟨by nlinarith, by nlinarith, fun _ => by nlinarith, fun hx => by nlinarith⟩
  · rw [if_neg h]
    push_neg at h
    have hx : x < 0 := by
      by_contra hx0
      push_neg at hx0
      exact absurd (div_nonneg hx0 (le_of_lt h360)) (not_le.2 h)
    have h1 : x / 360 ≤ ((⌈x / 360⌉ : ℤ) : ℚ) := Int.le_ceil _
    have h2 : ((⌈x / 360⌉ : ℤ) : ℚ) < x / 360 + 1 := Int.ceil_lt_add_one _
    have h1m : x ≤ ((⌈x / 360⌉ : ℤ) : ℚ) * 360 := (div_le_iff₀ h360).1 h1
    have h2m : (((⌈x / 360⌉ : ℤ) : ℚ) - 1) * 360 < x := by
      have : ((⌈x / 360⌉ : ℤ) : ℚ) - 1 < x / 360 := by linarith
      exact (lt_div_iff₀ h360).1 this
    refine ⟨by nlinarith, by nlinarith, fun hx0 => absurd hx0 (not_le.2 hx),
      fun _ => by nlinarith⟩

/-- Discrete key events never change the object registry. -/
theorem keyCallback_objects (st : ViewerState) (ev : KeyEvent) :
    (keyCallback st ev).objects = st.objects := by
  cases ev <;> simp only [keyCallback]
  split <;> rfl

theorem tabIter_objects (n : Nat) : ∀ st : ViewerState,
    (tabIter n st).objects = st.objects := by
  induction n with
  | zero => intro st; rfl
  | succ m ih =>
    intro st
    rw [tabIter, ih, keyCallback_objects]

/-- Tab presses on an empty registry are no-ops. -/
theorem tabIter_empty (n : Nat) : ∀ st : ViewerState,
    st.objects = [] → tabIter n st = st := by
  induction n with
  | zero => intro st _; rfl
  | succ m ih =>
    intro st h
    rw [tabIter]
    have hcb : keyCallback st .tab = st := by
      simp only [keyCallback, h, if_pos]
    rw [hcb]
    exact ih st h

/-- Iterated tab presses advance an in-range selection by `k` modulo the
registry size. -/
theorem tabIter_selected (n : Nat) : ∀ st : ViewerState,
    st.selectedIndex < st.objects.length →
    (tabIter n st).selectedIndex = (st.selectedIndex + n) % st.objects.length := by
  induction n with
  | zero =>
    intro st h
    simp [tabIter, Nat.mod_eq_of_lt h]
  | succ m ih =>
    intro st h
    have hlen : 0 < st.objects.length := Nat.lt_of_le_of_lt (Nat.zero_le _) h
    have hne : ¬st.objects = [] := by
      intro hnil
      rw [hnil] at hlen
      exact absurd hlen (by simp)
    rw [tabIter]
    have hcb : keyCallback st .tab =
        { st with selectedIndex := (st.selectedIndex + 1) % st.objects.length } := by
      simp [keyCallback, hne]
    rw [hcb]
    have hlt : (st.selectedIndex + 1) % st.objects.length < st.objects.length :=
      Nat.mod_lt _ hlen
    rw [ih _ hlt]
    simp only [List.length_cons]
    rw [Nat.mod_add_mod]
    ring_nf

/-- Claim C5: starting from `selectedIndex 0`, `k` Tab advances on an
`n`-object registry (`n > 0`) leave `selectedIndex = k % n`; on an empty
registry every Tab advance is a no-op (and never fails). -/
theorem C5_select_next_cyclic (st : ViewerState) (k : Nat) :
    (st.selectedIndex = 0 → 0 < st.objects.length →
      (tabIter k st).selectedIndex = k % st.objects.length)
    ∧ (st.objects = [] → tabIter k st = st) := by
  constructor
  · intro h0 hpos
    have := tabIter_selected k st (by rw [h0]; exact hpos)
    rw [this, h0, Nat.zero_add]
  · exact tabIter_empty k st

/-- Witness for C5 at concrete inputs: three Tab presses on the two-object
initial scene select index `3 % 2 = 1`; one Tab press on an empty registry
changes nothing. -/
theorem C5_select_next_cyclic_witness :
    (tabIter 3 initState).selectedIndex = 3 % 2 ∧
      tabIter 1 emptyViewer = emptyViewer :=
  ⟨(C5_select_next_cyclic initState 3).1 rfl (by decide),
    (C5_select_next_cyclic emptyViewer 1).2 rfl⟩

/-- A per-frame update never changes the selection index. -/
theorem processInput_selectedIndex (st : ViewerState) (k : Keys) (dt : ℚ) :
    (processInput st k dt).selectedIndex = st.selectedIndex := by
  unfold processInput
  split
  · rfl
  · split
    · rfl
    · split_ifs <;> rfl

/-- A per-frame update never changes the mode flags. -/
theorem processInput_modes (st : ViewerState) (k : Keys) (dt : ℚ) :
    (processInput st k dt).transformMode = st.transformMode ∧
      (processInput st k dt).transformMode2 = st.transformMode2 ∧
      (processInput st k dt).wireframeMode = st.wireframeMode := by
  unfold processInput
  split
  · exact ⟨rfl, rfl, rfl⟩
  · split
    · exact ⟨rfl, rfl, rfl⟩
    · split_ifs <;> exact ⟨rfl, rfl, rfl⟩

/-- A per-frame update never changes the registry size. -/
theorem processInput_length (st : ViewerState) (k : Keys) (dt : ℚ) :
    (processInput st k dt).objects.length = st.objects.length := by
  unfold processInput
  split
  · rfl
  · split
    · rfl
    · split_ifs <;> simp

/-- Every rotation vector after a per-frame update is either an old
object's rotation or an output of the rotate-branch update. -/
theorem processInput_rotation_cases (st : ViewerState) (k : Keys) (dt : ℚ) :
    ∀ o' ∈ (processInput st k dt).objects,
      (∃ o ∈ st.objects, o'.rotation = o.rotation) ∨
        ∃ r, o'.rotation = rotUpd k (rotationSpeed * dt) r := by
  intro o' h
  unfold processInput at h
  split at h
  · exact Or.inl ⟨o', h, rfl⟩
  · split at h
    · exact Or.inl ⟨o', h, rfl⟩
    · rename_i o hobj
      have homem : o ∈ st.objects := List.getElem?_mem hobj
      split_ifs at h
      · rcases List.mem_or_eq_of_mem_set h with h1 | h1
        · exact Or.inl ⟨o', h1, rfl⟩
        · exact Or.inl ⟨o, homem, by rw [h1]⟩
      · rcases List.mem_or_eq_of_mem_set h with h1 | h1
        · exact Or.inl ⟨o', h1, rfl⟩
        · exact Or.inr ⟨o.rotation, by rw [h1]⟩
      · rcases List.mem_or_eq_of_mem_set h with h1 | h1
        · exact Or.inl ⟨o', h1, rfl⟩
        · exact Or.inl ⟨o, homem, by rw [h1]⟩

/-- Every scale vector after a per-frame update is either an old object's
scale or an output of the scale-branch update. -/
theorem processInput_scale_cases (st : ViewerState) (k : Keys) (dt : ℚ) :
    ∀ o' ∈ (processInput st k dt).objects,
      (∃ o ∈ st.objects, o'.scale = o.scale) ∨
        ∃ v, o'.scale = scaleUpd k (scaleSpeed * dt) v := by
  intro o' h
  unfold processInput at h
  split at h
  · exact Or.inl ⟨o', h, rfl⟩
  · split at h
    · exact Or.inl ⟨o', h, rfl⟩
    · rename_i o hobj
      have homem : o ∈ st.objects := List.getElem?_mem hobj
      split_ifs at h
      · rcases List.mem_or_eq_of_mem_set h with h1 | h1
        · exact Or.inl ⟨o', h1, rfl⟩
        · exact Or.inr ⟨o.scale, by rw [h1]⟩
      · rcases List.mem_or_eq_of_mem_set h with h1 | h1
        · exact Or.inl ⟨o', h1, rfl⟩
        · exact Or.inl ⟨o, homem, by rw [h1]⟩
      · rcases List.mem_or_eq_of_mem_set h with h1 | h1
        · exact Or.inl ⟨o', h1, rfl⟩
        · exact Or.inl ⟨o, homem, by rw [h1]⟩

/-- The rotate branch's output always lies strictly inside `(-360, 360)`
componentwise. -/
theorem rotUpd_inWrapRange (k : Keys) (c : ℚ) (r : V3) :
    inWrapRange (rotUpd k c r) := by
  refine ⟨⟨?_, ?_⟩, ⟨?_, ?_⟩, ⟨?_, ?_⟩⟩
  · exact (fmodQ_360_props _).1
  · exact (fmodQ_360_props _).2.1
  · exact (fmodQ_360_props _).1
  · exact (fmodQ_360_props _).2.1
  · exact (fmodQ_360_props _).1
  · exact (fmodQ_360_props _).2.1

/-- The scale branch's output respects the `0.1` floor componentwise. -/
theorem scaleUpd_floored (k : Keys) (c : ℚ) (v : V3) :
    flooredScale (scaleUpd k c v) :=
  ⟨le_max_right _ _, le_max_right _ _, le_max_right _ _⟩

/-- Rotation bounds are preserved by every interaction step. -/
theorem runStep_rot_invariant (st : ViewerState) (stp : Step)
    (h : ∀ o ∈ st.objects, inWrapRange o.rotation) :
    ∀ o ∈ (runStep st stp).objects, inWrapRange o.rotation := by
  cases stp with
  | frame k dt =>
    intro o' ho'
    rcases processInput_rotation_cases st k dt o' ho' with ⟨o, hm, he⟩ | ⟨r, he⟩
    · rw [he]
      exact h o hm
    · rw [he]
      exact rotUpd_inWrapRange _ _ _
  | press ev =>
    intro o' ho'
    rw [runStep, keyCallback_objects] at ho'
    exact h o' ho'

/-- Scale floors are preserved by every interaction step. -/
theorem runStep_scale_invariant (st : ViewerState) (stp : Step)
    (h : ∀ o ∈ st.objects, flooredScale o.scale) :
    ∀ o ∈ (runStep st stp).objects, flooredScale o.scale := by
  cases stp with
  | frame k dt =>
    intro o' ho'
    rcases processInput_scale_cases st k dt o' ho' with ⟨o, hm, he⟩ | ⟨v, he⟩
    · rw [he]
      exact h o hm
    · rw [he]
      exact scaleUpd_floored _ _ _
  | press ev =>
    intro o' ho'
    rw [runStep, keyCallback_objects] at ho'
    exact h o' ho'

theorem runSteps_rot_invariant (steps : List Step) : ∀ st : ViewerState,
    (∀ o ∈ st.objects, inWrapRange o.rotation) →
    ∀ o ∈ (runSteps st steps).objects, inWrapRange o.rotation := by
  induction steps with
  | nil => intro st h; exact h
  | cons stp rest ih =>
    intro st h
    exact ih _ (runStep_rot_invariant st stp h)

theorem runSteps_scale_invariant (steps : List Step) : ∀ st : ViewerState,
    (∀ o ∈ st.objects, flooredScale o.scale) →
    ∀ o ∈ (runSteps st steps).objects, flooredScale o.scale := by
  induction steps with
  | nil => intro st h; exact h
  | cons stp rest ih =>
    intro st h
    exact ih _ (runStep_scale_invariant st stp h)

theorem initState_rot_ok : ∀ o ∈ initState.objects, inWrapRange o.rotation := by
  intro o ho
  rcases ho with _ | ⟨_, ho⟩
  · exact ⟨⟨by norm_num [initObjA], by norm_num [initObjA]⟩,
      ⟨by norm_num [initObjA], by norm_num [initObjA]⟩,
      ⟨by norm_num [initObjA], by norm_num [initObjA]⟩⟩
  · rcases ho with _ | ⟨_, ho⟩
    · exact ⟨⟨by norm_num [initObjB], by norm_num [initObjB]⟩,
        ⟨by norm_num [initObjB], by norm_num [initObjB]⟩,
        ⟨by norm_num [initObjB], by norm_num [initObjB]⟩⟩
    · cases ho

theorem initState_scale_ok : ∀ o ∈ initState.objects, flooredScale o.scale := by
  intro o ho
  rcases ho with _ | ⟨_, ho⟩
  · exact ⟨by norm_num [initObjA], by norm_num [initObjA], by norm_num [initObjA]⟩
  · rcases ho with _ | ⟨_, ho⟩
    · exact ⟨by norm_num [initObjB], by norm_num [initObjB], by norm_num [initObjB]⟩
    · cases ho

/-- Claim C6: after any sequence of interaction steps in any mode, every
object's rotation components lie strictly inside `(-360, 360)`, and the
`fmod` wrap preserves the component's sign (wrap, not clamp). -/
theorem C6_rotation_wrap_invariant :
    (∀ steps : List Step, ∀ o ∈ (runSteps initState steps).objects,
      inWrapRange o.rotation)
    ∧ (∀ x : ℚ, (0 ≤ x → 0 ≤ fmodQ x 360) ∧ (x ≤ 0 → fmodQ x 360 ≤ 0)) :=
  ⟨fun steps => runSteps_rot_invariant steps initState initState_rot_ok,
    fun x => ⟨(fmodQ_360_props x).2.2.1, (fmodQ_360_props x).2.2.2⟩⟩

/-- Witness for C6 at concrete inputs: the invariant instantiated on the
empty step sequence and the first loaded object, and the sign property of
the wrap at `x = 0`. -/
theorem C6_rotation_wrap_witness :
    ((-360 : ℚ) < 0 ∧ (0 : ℚ) < 360) ∧ (0 : ℚ) ≤ fmodQ 0 360 :=
  ⟨(C6_rotation_wrap_invariant.1 [] initObjA (List.mem_cons_self _ _)).1,
    (C6_rotation_wrap_invariant.2 0).1 le_rfl⟩

/-- In Scale mode, one frame with a valid selection replaces exactly the
selected object's scale by the scale-branch output. -/
theorem processInput_scale_step (st : ViewerState) (o : ObjectState) (k : Keys)
    (d : ℚ) (hm : st.transformMode2 = true)
    (hobj : st.objects[st.selectedIndex]? = some o) :
    processInput st k d =
      { st with objects := st.objects.set st.selectedIndex { o with scale := scaleUpd k (scaleSpeed * d) o.scale } } := by
  have hlt : st.selectedIndex < st.objects.length :=
    (List.getElem?_eq_some_iff.1 hobj).1
  have hguard : ¬(st.objects = [] ∨ st.objects.length ≤ st.selectedIndex) := by
    push_neg
    refine ⟨?_, hlt⟩
    intro hnil
    rw [hnil] at hlt
    exact absurd hlt (by simp)
  unfold processInput
  rw [if_neg hguard]
  rw [hobj]
  simp [hm]

/-- With only `D` held, the scale branch adds `c` to the `x` component
(before the floor) and floors the others. -/
theorem scaleUpd_onlyD (c : ℚ) (v : V3) :
    scaleUpd keysOnlyD c v =
      ⟨max (v.x + c) (1 / 10), max v.y (1 / 10), max v.z (1 / 10)⟩ := by
  simp [scaleUpd, keysOnlyD]

/-- Folding Scale-mode frames with only `D` held accumulates
`scaleSpeed * Σ dt` onto `scale.x` exactly (the floor never engages from a
floored start with nonnegative frame times). -/
theorem scaleFoldD (dts : List ℚ) : ∀ (st : ViewerState) (o : ObjectState),
    st.transformMode2 = true →
    st.objects[st.selectedIndex]? = some o →
    1 / 10 ≤ o.scale.x →
    (∀ d ∈ dts, 0 ≤ d) →
    ((dts.foldl (fun s2 d => processInput s2 keysOnlyD d) st).objects[st.selectedIndex]?).map
        (fun ob => ob.scale.x) = some (o.scale.x + scaleSpeed * dts.sum) := by
  induction dts with
  | nil =>
    intro st o hm hobj hx hd
    simp [hobj, scaleSpeed]
  | cons d rest ih =>
    intro st o hm hobj hx hd
    have hlt : st.selectedIndex < st.objects.length :=
      (List.getElem?_eq_some_iff.1 hobj).1
    have hd0 : 0 ≤ d := hd d (List.mem_cons_self _ _)
    have hc : 0 ≤ scaleSpeed * d := by
      simpa [scaleSpeed] using hd0
    have hstep := processInput_scale_step st o keysOnlyD d hm hobj
    have hsel1 : (processInput st keysOnlyD d).selectedIndex = st.selectedIndex :=
      processInput_selectedIndex st keysOnlyD d
    have hm1 : (processInput st keysOnlyD d).transformMode2 = true := by
      rw [(processInput_modes st keysOnlyD d).2.1]
      exact hm
    have hobj1 : (processInput st keysOnlyD d).objects[(processInput st keysOnlyD d).selectedIndex]? =
        some ({ o with scale := scaleUpd keysOnlyD (scaleSpeed * d) o.scale }) := by
      rw [hsel1, hstep]
      exact List.getElem?_set_self (by simpa using hlt)
    have hx1 : 1 / 10 ≤ ({ o with scale := scaleUpd keysOnlyD (scaleSpeed * d) o.scale} : ObjectState).scale.x := by
      rw [scaleUpd_onlyD]
      exact le_max_right _ _
    have hrest : ∀ d2 ∈ rest, (0 : ℚ) ≤ d2 := fun d2 hmem => hd d2 (List.mem_cons_of_mem _ hmem)
    have hih := ih (processInput st keysOnlyD d)
      ({ o with scale := scaleUpd keysOnlyD (scaleSpeed * d) o.scale }) hm1 hobj1 hx1 hrest
    rw [hsel1] at hih
    simp only [List.foldl_cons]
    rw [hih]
    have hsx : ({ o with scale := scaleUpd keysOnlyD (scaleSpeed * d) o.scale} : ObjectState).scale.x =
        o.scale.x + scaleSpeed * d := by
      rw [scaleUpd_onlyD]
      simp only []
      exact max_eq_left (by linarith)
    rw [hsx]
    congr 1
    rw [List.sum_cons]
    ring

/-- Claim C7: in Scale mode, holding the `+X` key (`D`) over frames whose
`dt` values sum to `t` increases `scale.x` by exactly `scaleSpeed * t`
(the floor never cuts an increase from a floored start), and no sequence
of interaction steps ever drives any scale component below `0.1`. -/
theorem C7_scale_hold_and_floor :
    (∀ (st : ViewerState) (o : ObjectState) (dts : List ℚ),
        st.transformMode2 = true →
        st.objects[st.selectedIndex]? = some o →
        1 / 10 ≤ o.scale.x →
        (∀ d ∈ dts, 0 ≤ d) →
        ((dts.foldl (fun s2 d => processInput s2 keysOnlyD d) st).objects[st.selectedIndex]?).map
            (fun ob => ob.scale.x) = some (o.scale.x + scaleSpeed * dts.sum))
    ∧ ∀ steps : List Step, ∀ o ∈ (runSteps initState steps).objects,
        flooredScale o.scale :=
  ⟨fun st o dts hm hobj hx hd => scaleFoldD dts st o hm hobj hx hd,
    fun steps => runSteps_scale_invariant steps initState initState_scale_ok⟩

/-- Witness for C7 at concrete inputs: from the initial scene switched to
Scale mode, one 1-second frame with `D` held takes `scale.x` from `1` to
`1 + scaleSpeed * 1`; and the floor invariant instantiated on the empty
step sequence and the first object. -/
theorem C7_scale_hold_and_floor_witness :
    ((([(1 : ℚ)].foldl (fun s2 d => processInput s2 keysOnlyD d)
          { initState with transformMode2 := true }).objects[(0 : Nat)]?).map
        (fun ob => ob.scale.x) = some (initObjA.scale.x + scaleSpeed * List.sum [(1 : ℚ)]))
    ∧ (1 : ℚ) / 10 ≤ 1 :=
  ⟨C7_scale_hold_and_floor.1 { initState with transformMode2 := true } initObjA [(1 : ℚ)]
      rfl rfl (by norm_num [initObjA]) (by intro d hd; rw [List.mem_singleton] at hd; rw [hd]; norm_num),
    (C7_scale_hold_and_floor.2 [] initObjA (List.mem_cons_self _ _)).1⟩

/-- Characterisation of one frame with a valid selection: exactly one
transform field of the selected object is replaced, according to the
mode pair. -/
theorem processInput_eq_of_some (st : ViewerState) (k : Keys) (dt : ℚ)
    (o : ObjectState) (hobj : st.objects[st.selectedIndex]? = some o) :
    processInput st k dt =
      if st.transformMode2 = true then
        { st with objects := st.objects.set st.selectedIndex { o with scale := scaleUpd k (scaleSpeed * dt) o.scale } }
      else if st.transformMode = true then
        { st with objects := st.objects.set st.selectedIndex { o with rotation := rotUpd k (rotationSpeed * dt) o.rotation } }
      else
        { st with objects := st.objects.set st.selectedIndex { o with position := posUpd k (translationSpeed * dt) o.position } } := by
  have hlt : st.selectedIndex < st.objects.length :=
    (List.getElem?_eq_some_iff.1 hobj).1
  have hguard : ¬(st.objects = [] ∨ st.objects.length ≤ st.selectedIndex) := by
    push_neg
    refine ⟨?_, hlt⟩
    intro hnil
    rw [hnil] at hlt
    exact absurd hlt (by simp)
  unfold processInput
  rw [if_neg hguard, hobj]

/-- Claim C10: a per-frame continuous update mutates at most one transform
field of at most one object — the selected one, chosen by the mode — and
is a no-op when the registry is empty or the selection is out of range. -/
theorem C10_frame_update_isolation (st : ViewerState) (k : Keys) (dt : ℚ) :
    ((st.objects = [] ∨ st.objects.length ≤ st.selectedIndex) →
      processInput st k dt = st)
    ∧ (∀ o, st.objects[st.selectedIndex]? = some o →
        (processInput st k dt).selectedIndex = st.selectedIndex ∧
        (processInput st k dt).transformMode = st.transformMode ∧
        (processInput st k dt).transformMode2 = st.transformMode2 ∧
        (processInput st k dt).wireframeMode = st.wireframeMode ∧
        (processInput st k dt).objects.length = st.objects.length ∧
        (∀ j, j ≠ st.selectedIndex →
          (processInput st k dt).objects[j]? = st.objects[j]?) ∧
        ∃ oNew, (processInput st k dt).objects[st.selectedIndex]? = some oNew ∧
          (if st.transformMode2 = true then
            oNew.position = o.position ∧ oNew.rotation = o.rotation
          else if st.transformMode = true then
            oNew.position = o.position ∧ oNew.scale = o.scale
          else
            oNew.rotation = o.rotation ∧ oNew.scale = o.scale)) := by
  constructor
  · intro hguard
    unfold processInput
    rw [if_pos hguard]
  · intro o hobj
    have hlt : st.selectedIndex < st.objects.length :=
      (List.getElem?_eq_some_iff.1 hobj).1
    have hch := processInput_eq_of_some st k dt o hobj
    refine ⟨processInput_selectedIndex st k dt, (processInput_modes st k dt).1,
      (processInput_modes st k dt).2.1, (processInput_modes st k dt).2.2,
      processInput_length st k dt, ?_, ?_⟩
    · intro j hj
      rw [hch]
      split_ifs <;> simp only [] <;> exact List.getElem?_set_ne (fun he => hj he.symm)
    · rw [hch]
      split_ifs with h2 h1
      · exact ⟨{ o with scale := scaleUpd k (scaleSpeed * dt) o.scale },
          List.getElem?_set_self (by simpa using hlt), rfl, rfl⟩
      · exact ⟨{ o with rotation := rotUpd k (rotationSpeed * dt) o.rotation },
          List.getElem?_set_self (by simpa using hlt), rfl, rfl⟩
      · exact ⟨{ o with position := posUpd k (translationSpeed * dt) o.position },
          List.getElem?_set_self (by simpa using hlt), rfl, rfl⟩

/-- Witness for C10 at concrete inputs: on the empty registry a frame is a
no-op, and on the initial scene a frame keeps the selection index. -/
theorem C10_frame_update_isolation_witness :
    processInput emptyViewer keysNone 1 = emptyViewer ∧
      (processInput initState keysNone 1).selectedIndex = initState.selectedIndex :=
  ⟨(C10_frame_update_isolation emptyViewer keysNone 1).1 (Or.inl rfl),
    ((C10_frame_update_isolation initState keysNone 1).2 initObjA rfl).1⟩

/-- The fill mode at an object's `glDrawElements` call depends only on its
own selection flag and the global wireframe flag. -/
theorem drawObj_used (b1 b2 : Bool) (gl : FillMode) :
    (drawObj b1 b2 gl).1 = if b1 && b2 then FillMode.line else FillMode.fill := rfl

/-- After any single draw call the polygon mode is back to fill. -/
theorem drawObj_after (b1 b2 : Bool) (gl : FillMode) :
    (drawObj b1 b2 gl).2 = FillMode.fill := by
  cases b1 <;> cases b2 <;> rfl

/-- Claim C8: in a frame's draw pass, object `i` is rasterised in line
(wireframe) mode iff it is the selected object and the wireframe flag is
on; every other object is drawn solid, and after the pass (indeed after
every single draw) the polygon mode is fill again, so wireframe never
leaks into a later draw of the same frame. -/
theorem C8_wireframe_selected_only (n selIdx : Nat) (wf : Bool) (gl0 : FillMode) :
    (drawAllFrame n selIdx wf gl0).1 =
      (List.range n).map
        (fun i => if i = selIdx ∧ wf = true then FillMode.line else FillMode.fill)
    ∧ (drawAllFrame n selIdx wf gl0).2 = (if n = 0 then gl0 else FillMode.fill) := by
  induction n with
  | zero => exact ⟨rfl, rfl⟩
  | succ m ih =>
    have hrec : drawAllFrame (m + 1) selIdx wf gl0 =
        ((drawAllFrame m selIdx wf gl0).1 ++
            [(drawObj (decide (m = selIdx)) wf (drawAllFrame m selIdx wf gl0).2).1],
          (drawObj (decide (m = selIdx)) wf (drawAllFrame m selIdx wf gl0).2).2) := by
      unfold drawAllFrame
      rw [List.range_succ, List.foldl_append]
      rfl
    constructor
    · rw [hrec]
      simp only [ih.1, List.range_succ, List.map_append, List.map_cons, List.map_nil]
      congr 1
      rw [drawObj_used]
      by_cases hms : m = selIdx <;> cases wf <;> simp [hms]
    · rw [hrec]
      simp [drawObj_after]

section ModelMatrixThm

variable {α : Type} [CommRing α]

/-- The `glm::translate` column computation is right-multiplication by the
translation matrix. -/
theorem glmTranslate_eq_mul (m : M4 α) (p : Fin 3 → α) :
    glmTranslate m p = m * translateMat p := by
  ext i j
  fin_cases j <;>
    simp [glmTranslate, translateMat, Matrix.mul_apply, Fin.sum_univ_four, Matrix.vecHead, Matrix.vecTail]

/-- The `glm::rotate` column computation on axis `(1,0,0)` is
right-multiplication by the `RotateX` matrix. -/
theorem glmRotate_x_eq_mul (m : M4 α) (c s : α) :
    glmRotate m c s ![1, 0, 0] = m * rotXMat c s := by
  ext i j
  fin_cases j <;>
    simp [glmRotate, rotXMat, Matrix.mul_apply, Fin.sum_univ_four, Matrix.vecHead, Matrix.vecTail]

/-- The `glm::rotate` column computation on axis `(0,1,0)` is
right-multiplication by the `RotateY` matrix. -/
theorem glmRotate_y_eq_mul (m : M4 α) (c s : α) :
    glmRotate m c s ![0, 1, 0] = m * rotYMat c s := by
  ext i j
  fin_cases j <;>
    simp [glmRotate, rotYMat, Matrix.mul_apply, Fin.sum_univ_four, Matrix.vecHead, Matrix.vecTail]

/-- The `glm::rotate` column computation on axis `(0,0,1)` is
right-multiplication by the `RotateZ` matrix. -/
theorem glmRotate_z_eq_mul (m : M4 α) (c s : α) :
    glmRotate m c s ![0, 0, 1] = m * rotZMat c s := by
  ext i j
  fin_cases j <;>
    simp [glmRotate, rotZMat, Matrix.mul_apply, Fin.sum_univ_four, Matrix.vecHead, Matrix.vecTail]

/-- The `glm::scale` column computation is right-multiplication by the
scale matrix. -/
theorem glmScale_eq_mul (m : M4 α) (v : Fin 3 → α) :
    glmScale m v = m * scaleMat v := by
  ext i j
  fin_cases j <;>
    simp [glmScale, scaleMat, Matrix.mul_apply, Fin.sum_univ_four, Matrix.vecHead, Matrix.vecTail]

/-- Claim C9: the model matrix submitted by `OBJ::draw` is exactly
`Translate(position) · RotateX · RotateY · RotateZ · Scale(scale)` in that
composition order. -/
theorem C9_model_matrix_order (p : Fin 3 → α) (cx sx cy sy cz sz : α)
    (sc : Fin 3 → α) :
    modelMatrix p cx sx cy sy cz sz sc =
      translateMat p * rotXMat cx sx * rotYMat cy sy * rotZMat cz sz *
        scaleMat sc := by
  unfold modelMatrix
  rw [glmTranslate_eq_mul, glmRotate_x_eq_mul, glmRotate_y_eq_mul,
    glmRotate_z_eq_mul, glmScale_eq_mul, one_mul]

end ModelMatrixThm

/-- Each face-corner iteration records exactly one vertex index. -/
theorem faceCorner_vIdx_len (fs : FaceState) :
    (faceCorner fs).vIdx.length = fs.vIdx.length + 1 := by
  unfold faceCorner
  dsimp only
  split_ifs <;> simp

/-- An `f` line records exactly three vertex indices. -/
theorem processFaceLine_len (g : Nat × Nat) (restToks : List (List Char))
    (vIdx nIdx : List Nat) :
    (processFaceLine g restToks vIdx nIdx).1.length = vIdx.length + 3 := by
  unfold processFaceLine
  simp only [faceCorner_vIdx_len]

/-- A line adds three vertex indices exactly when it is an `f` line. -/
theorem processLine_vIdx_len (g : Nat × Nat) (st : ParseState) (l : String) :
    (processLine g st l).vertexIndices.length =
      st.vertexIndices.length + (if lineIsFace l then 3 else 0) := by
  unfold processLine lineIsFace
  cases htok : tokenize l with
  | nil => simp
  | cons pfx rest =>
    by_cases hv : pfx = ['v']
    · simp [hv]
    · by_cases hvn : pfx = ['v', 'n']
      · simp [hv, hvn]
      · by_cases hf : pfx = ['f']
        · simp [hv, hvn, hf, processFaceLine_len]
        · simp [hv, hvn, hf]

theorem parseOBJAux_vIdx_len (g : Nat → Nat × Nat) : ∀ (lines : List String)
    (i : Nat) (st : ParseState),
    (parseOBJAux g lines i st).vertexIndices.length =
      st.vertexIndices.length + 3 * faceCount lines := by
  intro lines
  induction lines with
  | nil =>
    intro i st
    simp [parseOBJAux, faceCount]
  | cons l ls ih =>
    intro i st
    rw [parseOBJAux, ih, processLine_vIdx_len]
    unfold faceCount
    rw [List.filter_cons]
    by_cases h : lineIsFace l
    · simp [h, faceCount]
      omega
    · simp [h, faceCount]

/-- Claim C3: for every geometry file (and any contents of the
uninitialised locals), the flattened `vertices`, `normals` and draw-index
arrays have equal lengths, that common length is a multiple of 3, and it
equals three times the number of `f` lines. -/
theorem C3_flatten_lengths (g : Nat → Nat × Nat) (lines : List String) :
    (loadOBJ g lines).vertices.length = (loadOBJ g lines).normals.length
    ∧ (loadOBJ g lines).normals.length = (loadOBJ g lines).indices.length
    ∧ (loadOBJ g lines).vertices.length % 3 = 0
    ∧ (loadOBJ g lines).vertices.length = 3 * faceCount lines := by
  have hlen : (parseOBJ g lines).vertexIndices.length = 3 * faceCount lines := by
    have h := parseOBJAux_vIdx_len g lines 0 ⟨[], [], [], []⟩
    simpa [parseOBJ] using h
  unfold loadOBJ flatten
  refine ⟨by simp, by simp, ?_, ?_⟩
  · simp only [List.length_map, hlen]
    exact Nat.mul_mod_right 3 _
  · simpa using hlen

set_option maxHeartbeats 1000000 in
/-- Claim C4: the plain-triangle file (`f 1 2 3`, no `vn` lines) flattens
to exactly its three vertices in order, three default `(0,1,0)` normals,
and the identity draw indices `[0,1,2]` — whatever the uninitialised
locals held, they are never consulted on this input. -/
theorem C4_simple_triangle (g : Nat → Nat × Nat) :
    loadOBJ g fileC4 =
      { vertices := [⟨0, 0, 0⟩, ⟨1, 0, 0⟩, ⟨0, 1, 0⟩]
        normals := [⟨0, 1, 0⟩, ⟨0, 1, 0⟩, ⟨0, 1, 0⟩]
        indices := [0, 1, 2] } := rfl

set_option maxHeartbeats 1000000 in
/-- On the `f 1//1 2//2 3//3` file, parsing records the same (stale)
normal index for all three corners: the empty texture field makes the
stream read each corner's normal number into `textureIndex`, so the
`normalIndex` extraction's sentry fails and the uninitialised local is
recorded unchanged each time. -/
theorem parseOBJ_fileC1 (g : Nat → Nat × Nat) :
    parseOBJ g fileC1 =
      ⟨[⟨0, 0, 0⟩, ⟨1, 0, 0⟩, ⟨0, 1, 0⟩], [⟨1, 0, 0⟩, ⟨0, 1, 0⟩, ⟨0, 0, 1⟩],
        [0, 1, 2], [sub1w ((g 6).2), sub1w ((g 6).2), sub1w ((g 6).2)]⟩ := rfl

/-- Claim C1 (divergence of the code from the claim): since all three
corners of `f 1//1 2//2 3//3` share one stale normal index (see
`parseOBJ_fileC1`), the three flattened normals are all identical —
whatever the uninitialised local held — so they cannot reproduce the
three pairwise distinct source normals the file declares (second
conjunct). -/
theorem C1_normal_misparse_divergence (g : Nat → Nat × Nat) :
    ((loadOBJ g fileC1).normals[0]? = (loadOBJ g fileC1).normals[1]?
      ∧ (loadOBJ g fileC1).normals[1]? = (loadOBJ g fileC1).normals[2]?)
    ∧ (parseOBJ g fileC1).temp_normals = [⟨1, 0, 0⟩, ⟨0, 1, 0⟩, ⟨0, 0, 1⟩] := by
  unfold loadOBJ
  rw [parseOBJ_fileC1]
  exact ⟨⟨rfl, rfl⟩, rfl⟩

/-- Claim C2 (divergence of the code from the claim): when the file cannot
be opened, `loadOBJ` merely logs and returns, the constructor completes,
and `main` still pushes the object — twice here, since both configured
objects use the same path — so the scene keeps two half-initialised
objects with empty meshes (and the `objects.empty()` exit check passes,
letting the render loop draw them). -/
theorem C2_load_failure_divergence (g : Nat → Nat × Nat) :
    constructOBJ g none = ⟨[], [], []⟩
    ∧ mainScene g none = [⟨[], [], []⟩, ⟨[], [], []⟩]
    ∧ (mainScene g none).length = 2 :=
  ⟨rfl, rfl, rfl⟩

end M1
